import Mathlib

/-!
Shallow embedding of the worship-tracker authentication, credential, two-factor,
audit-logging and notification core (src/server/services and middleware).

Text-file-backed JS `Map`s are embedded as association lists with JS `Map`
semantics (set replaces an existing key in place, otherwise appends); the
username sets (`primary_admins.txt`, `deactivated_users.txt`) are embedded as
lists with JS `Set` semantics.  Library calls (bcrypt hashing/compare, JWT
signing/verification, AES secret decryption, TOTP verification, `Date` parsing)
are passed in as function parameters, since their implementations live outside
the repository.
-/

/-- JS `Map.has`: does the association list bind the key? -/
def mapHas {α : Type} (m : List (String × α)) (k : String) : Bool :=
  m.any (fun p => p.1 == k)

/-- JS `Map.get`: the first binding of the key, if any. -/
def mapGet {α : Type} (m : List (String × α)) (k : String) : Option α :=
  (m.find? (fun p => p.1 == k)).map Prod.snd

/-- JS `Map.set`: replace the binding in place if present, else append. -/
def mapSet {α : Type} (m : List (String × α)) (k : String) (v : α) : List (String × α) :=
  if mapHas m k then m.map (fun p => if p.1 == k then (k, v) else p) else m ++ [(k, v)]

/-- JS `Map.delete`: remove every binding of the key. -/
def mapDelete {α : Type} (m : List (String × α)) (k : String) : List (String × α) :=
  m.filter (fun p => p.1 != k)

/-- JS `Set.has`. -/
def setHas (s : List String) (k : String) : Bool :=
  s.contains k

/-- JS `Set.add`. -/
def setAdd (s : List String) (k : String) : List String :=
  if setHas s k then s else s ++ [k]

/-- JS `Set.delete`. -/
def setDelete (s : List String) (k : String) : List String :=
  s.filter (fun x => x != k)

/-- Leading- and trailing-whitespace removal on the character list (the JS
`String.prototype.trim`). -/
def trimChars (l : List Char) : List Char :=
  ((l.dropWhile Char.isWhitespace).reverse.dropWhile Char.isWhitespace).reverse

/-- JS `trim()` on a string. -/
def trimString (s : String) : String :=
  String.mk (trimChars s.toList)

/-- JS `toLowerCase()`, character by character. -/
def lowercaseString (s : String) : String :=
  String.mk (s.toList.map Char.toLower)

/-- `normalizeUsername` from credential-service.js: trim then lowercase. -/
def normalizeUsername (username : String) : String :=
  lowercaseString (trimString username)

/-- One character of the `USERNAME_PATTERN` class `[a-zA-Z0-9_.@-]`. -/
def isUsernameChar (c : Char) : Bool :=
  c.isAlphanum || c == '_' || c == '.' || c == '@' || c == '-'

/-- The credential-service `USERNAME_PATTERN` regex test `^[a-zA-Z0-9_.@-]{3,80}$`. -/
def usernameMatchesPattern (u : String) : Bool :=
  decide (3 ≤ u.length) && decide (u.length ≤ 80) && u.toList.all isUsernameChar

/-- The `AppError(status, message, code)` shape thrown by the services. -/
structure AppError where
  status : Nat
  message : String
  code : String
deriving Repr, DecidableEq

/-- The three derived roles of constants.js. -/
inductive Role where
  | primary_admin
  | admin
  | user
deriving Repr, DecidableEq

/-- `ADMIN_ROLES` from constants.js. -/
def adminRoles : List Role :=
  [Role.primary_admin, Role.admin]

/-- The parsed contents of the four credential-store backing files. -/
structure CredState where
  users : List (String × String)
  admins : List (String × String)
  primaryAdmins : List String
  deactivatedUsers : List String
deriving Repr, DecidableEq

/-- `resolveRoleForUsername` from credential-service.js. -/
def resolveRoleForUsername (username : String) (adminMap : List (String × String))
    (primaryAdminSet : List String) (userMap : List (String × String)) : Option Role :=
  if setHas primaryAdminSet username && mapHas adminMap username then some Role.primary_admin
  else if mapHas adminMap username then some Role.admin
  else if mapHas userMap username then some Role.user
  else none

/-- The record returned by `getUserByUsername`. -/
structure Account where
  username : String
  role : Role
  passwordHash : String
  isActive : Bool
deriving Repr, DecidableEq

/-- `getUserByUsername` from credential-service.js: derive the role by set
membership on every lookup and report activeness from the deactivated set. -/
def getUserByUsername (st : CredState) (rawUsername : String) : Option Account :=
  let username := normalizeUsername rawUsername
  if username = "" then none
  else
    match resolveRoleForUsername username st.admins st.primaryAdmins st.users with
    | none => none
    | some role =>
      let sourceMap := if role = Role.user then st.users else st.admins
      some { username := username
             role := role
             passwordHash := (mapGet sourceMap username).getD ""
             isActive := !(setHas st.deactivatedUsers username) }

/-- The `{username, role}` value returned by `authenticateUser`. -/
structure AuthIdentity where
  username : String
  role : Role
deriving Repr, DecidableEq

/-- `authenticateUser` from credential-service.js, with `bcrypt.compare`
abstracted as `cmp password passwordHash`.  Fails closed with `none`. -/
def authenticateUser (cmp : String → String → Bool) (st : CredState)
    (rawUsername password : String) : Option AuthIdentity :=
  match getUserByUsername st rawUsername with
  | none => none
  | some record =>
    if !record.isActive then none
    else if !(cmp password record.passwordHash) then none
    else some { username := record.username, role := record.role }

/-- `listAdminUsernames` from credential-service.js: admin credential keys
minus the deactivated set. -/
def listAdminUsernames (st : CredState) : List String :=
  (st.admins.map Prod.fst).filter (fun username => !(setHas st.deactivatedUsers username))

def invalidUsernameError : AppError :=
  { status := 400
    message := "Username must be 3-80 chars and only use letters, numbers, dot, underscore, @, or hyphen."
    code := "INVALID_USERNAME" }

/-- `validateUsername` from credential-service.js. -/
def validateUsername (rawUsername : String) : Except AppError String :=
  let username := normalizeUsername rawUsername
  if usernameMatchesPattern username then Except.ok username
  else Except.error invalidUsernameError

def weakPasswordError : AppError :=
  { status := 400, message := "Password must be at least 10 characters.", code := "WEAK_PASSWORD" }

/-- `validatePassword` from credential-service.js (minimum length 10). -/
def validatePassword (password : String) : Except AppError Unit :=
  if password.length < 10 then Except.error weakPasswordError else Except.ok ()

def userExistsError : AppError :=
  { status := 409, message := "Username already exists.", code := "USER_EXISTS" }

def invalidRoleError : AppError :=
  { status := 400, message := "Role must be user or admin.", code := "INVALID_ROLE" }

/-- The `{username, role, isActive}` summaries returned by the mutating calls. -/
structure UserSummary where
  username : String
  role : Role
  isActive : Bool
deriving Repr, DecidableEq

/-- `createUser` from credential-service.js, with `bcrypt.hash` abstracted as
`hash`.  The queued task body runs after validation; on success the affected
credential file and the deactivated set are rewritten. -/
def createUser (hash : String → String) (st : CredState)
    (rawUsername password : String) (role : Role) :
    Except AppError (UserSummary × CredState) :=
  match validateUsername rawUsername with
  | Except.error e => Except.error e
  | Except.ok username =>
    match validatePassword password with
    | Except.error e => Except.error e
    | Except.ok _ =>
      if !(role == Role.user || role == Role.admin) then
        Except.error invalidRoleError
      else if mapHas st.users username || mapHas st.admins username then
        Except.error userExistsError
      else
        let passwordHash := hash password
        let st1 :=
          if role == Role.admin then { st with admins := mapSet st.admins username passwordHash }
          else { st with users := mapSet st.users username passwordHash }
        let st2 := { st1 with deactivatedUsers := setDelete st1.deactivatedUsers username }
        Except.ok ({ username := username, role := role, isActive := true }, st2)

def primaryAdminProtectedError : AppError :=
  { status := 400, message := "Primary admin cannot be deleted.", code := "PRIMARY_ADMIN_PROTECTED" }

def userNotFoundError : AppError :=
  { status := 404, message := "User not found.", code := "USER_NOT_FOUND" }

/-- The `{username, role}` value returned by `deleteUser`. -/
structure DeleteResult where
  username : String
  role : Role
deriving Repr, DecidableEq

/-- `deleteUser` from credential-service.js: the primary-admin protection check
runs before any file is rewritten; the deleted role is `admin` when the admin
map held the name (it overrides a user-map hit, mirroring the source order). -/
def deleteUser (st : CredState) (rawUsername : String) :
    Except AppError (DeleteResult × CredState) :=
  match validateUsername rawUsername with
  | Except.error e => Except.error e
  | Except.ok username =>
    if setHas st.primaryAdmins username then
      Except.error primaryAdminProtectedError
    else
    match (if mapHas st.admins username then some Role.admin
           else if mapHas st.users username then some Role.user
           else none) with
    | none => Except.error userNotFoundError
    | some deletedRole =>
      Except.ok ({ username := username, role := deletedRole },
        { st with users := mapDelete st.users username
                  admins := mapDelete st.admins username
                  deactivatedUsers := setDelete st.deactivatedUsers username })

def alreadyAdminError : AppError :=
  { status := 409, message := "User is already an admin.", code := "ALREADY_ADMIN" }

def promoteNotFoundError : AppError :=
  { status := 404, message := "User not found in regular users.", code := "USER_NOT_FOUND" }

/-- `promoteUserToAdmin` from credential-service.js: moves the credential entry
from the users map to the admins map preserving the password hash; reads only
the two credential maps and reports `isActive := true` unconditionally. -/
def promoteUserToAdmin (st : CredState) (rawUsername : String) :
    Except AppError (UserSummary × CredState) :=
  match validateUsername rawUsername with
  | Except.error e => Except.error e
  | Except.ok username =>
    if mapHas st.admins username then
      Except.error alreadyAdminError
    else
    match mapGet st.users username with
    | none => Except.error promoteNotFoundError
    | some passwordHash =>
      Except.ok ({ username := username, role := Role.admin, isActive := true },
        { st with users := mapDelete st.users username
                  admins := mapSet st.admins username passwordHash })

/-- `serializeCredentialMap` from credential-service.js: sort by username and
emit one `username:passwordHash` line per entry. -/
def serializeCredentialMap (m : List (String × String)) : List String :=
  (m.mergeSort (fun a b => a.1 ≤ b.1)).map (fun entry => entry.1 ++ ":" ++ entry.2)

/-- A two-factor record as stored in admin_2fa (twofactor-service.js). -/
structure TwoFactorRecord where
  username : String
  secret : String
  enabled : Bool
  createdAt : String
  enabledAt : Option String
deriving Repr, DecidableEq

/-- The parsed admin_2fa file: username keyed records. -/
abbrev TwoFactorState := List (String × TwoFactorRecord)

/-- The status discriminator returned by `getTwoFactorStatus`. -/
inductive TwoFactorStatusKind where
  | disabled
  | pending
  | enabled
deriving Repr, DecidableEq

/-- The `{status, enabledAt}` value returned by `getTwoFactorStatus`. -/
structure TwoFactorStatus where
  status : TwoFactorStatusKind
  enabledAt : Option String
deriving Repr, DecidableEq

/-- `getTwoFactorStatus` from twofactor-service.js. -/
def getTwoFactorStatus (st : TwoFactorState) (rawUsername : String) : TwoFactorStatus :=
  let username := normalizeUsername rawUsername
  if username = "" then { status := TwoFactorStatusKind.disabled, enabledAt := none }
  else
    match mapGet st username with
    | none => { status := TwoFactorStatusKind.disabled, enabledAt := none }
    | some record =>
      if record.enabled then { status := TwoFactorStatusKind.enabled, enabledAt := record.enabledAt }
      else { status := TwoFactorStatusKind.pending, enabledAt := none }

/-- `hasTwoFactorEnabled` from twofactor-service.js. -/
def hasTwoFactorEnabled (st : TwoFactorState) (rawUsername : String) : Bool :=
  let username := normalizeUsername rawUsername
  if username = "" then false
  else
    match mapGet st username with
    | none => false
    | some record => record.enabled

def invalidOtpError : AppError :=
  { status := 400, message := "OTP code must be a 6-digit number.", code := "INVALID_OTP" }

/-- `validateOtp` from twofactor-service.js: trim, then require exactly six
ASCII digits (the `^\d{6}$` regex test). -/
def validateOtp (rawOtp : String) : Except AppError String :=
  let otp := trimString rawOtp
  if otp.length == 6 && otp.toList.all Char.isDigit then Except.ok otp
  else Except.error invalidOtpError

def noPending2faError : AppError :=
  { status := 400, message := "No pending 2FA setup exists.", code := "NO_PENDING_2FA" }

def totpSecretInvalidError : AppError :=
  { status := 500, message := "Failed to read 2FA secret.", code := "TOTP_SECRET_INVALID" }

def totpInvalidError : AppError :=
  { status := 401, message := "Invalid OTP code.", code := "TOTP_INVALID" }

/-- `enableTwoFactor` (the spec's `confirmEnable`) from twofactor-service.js.
`decrypt` abstracts `decryptSecret` (empty string means no usable secret) and
`totpVerify secret otp` abstracts the otplib `verify` call. -/
def enableTwoFactor (decrypt : String → String) (totpVerify : String → String → Bool)
    (now : String) (st : TwoFactorState) (rawUsername rawOtp : String) :
    Except AppError (TwoFactorStatus × TwoFactorState) :=
  let username := normalizeUsername rawUsername
  match validateOtp rawOtp with
  | Except.error e => Except.error e
  | Except.ok otp =>
    match mapGet st username with
    | none => Except.error noPending2faError
    | some record =>
      if record.enabled then Except.error noPending2faError
      else
        let secret := decrypt record.secret
        if secret = "" then Except.error totpSecretInvalidError
        else if !(totpVerify secret otp) then Except.error totpInvalidError
        else
          let record1 := { record with enabled := true, enabledAt := some now }
          Except.ok ({ status := TwoFactorStatusKind.enabled, enabledAt := some now },
            mapSet st username record1)

def totpNotEnabledError : AppError :=
  { status := 400, message := "Two-factor authentication is not enabled.", code := "TOTP_NOT_ENABLED" }

/-- `verifyTwoFactorForLogin` from twofactor-service.js: the same TOTP check
against an enabled record. -/
def verifyTwoFactorForLogin (decrypt : String → String) (totpVerify : String → String → Bool)
    (st : TwoFactorState) (rawUsername rawOtp : String) : Except AppError Bool :=
  let username := normalizeUsername rawUsername
  match validateOtp rawOtp with
  | Except.error e => Except.error e
  | Except.ok otp =>
    match mapGet st username with
    | none => Except.error totpNotEnabledError
    | some record =>
      if !record.enabled then Except.error totpNotEnabledError
      else
        let secret := decrypt record.secret
        if secret = "" then Except.error totpSecretInvalidError
        else if !(totpVerify secret otp) then Except.error totpInvalidError
        else Except.ok true

/-- The JWT payload signed by `createSessionToken` (auth-service.js). -/
structure TokenPayload where
  sub : String
  typ : String
  mfa : Bool
deriving Repr, DecidableEq

/-- The `{username, role, mfaVerified}` value returned by `authenticateToken`. -/
structure AuthUser where
  username : String
  role : Role
  mfaVerified : Bool
deriving Repr, DecidableEq

def missingTokenError : AppError :=
  { status := 401, message := "Authentication token is missing.", code := "MISSING_TOKEN" }

def invalidTokenError : AppError :=
  { status := 401, message := "Session is invalid or expired.", code := "INVALID_TOKEN" }

def invalidTokenPayloadError : AppError :=
  { status := 401, message := "Session payload is invalid.", code := "INVALID_TOKEN_PAYLOAD" }

def userNotAvailableError : AppError :=
  { status := 401, message := "User is inactive or does not exist.", code := "USER_NOT_AVAILABLE" }

/-- `authenticateToken` from auth-service.js, with `jwt.verify` abstracted as
`jwtVerify` (`none` when the signature or expiry check fails).  The role in the
result comes from a fresh `getUserByUsername` lookup, never from the token. -/
def authenticateToken (jwtVerify : String → Option TokenPayload) (st : CredState)
    (token : Option String) : Except AppError AuthUser :=
  match token with
  | none => Except.error missingTokenError
  | some tokenValue =>
    if tokenValue = "" then Except.error missingTokenError
    else
      match jwtVerify tokenValue with
      | none => Except.error invalidTokenError
      | some payload =>
        let username := lowercaseString payload.sub
        if username = "" then Except.error invalidTokenPayloadError
        else
          match getUserByUsername st username with
          | none => Except.error userNotAvailableError
          | some user =>
            if !user.isActive then Except.error userNotAvailableError
            else Except.ok { username := user.username, role := user.role, mfaVerified := payload.mfa }

def missingCredentialsError : AppError :=
  { status := 400, message := "Username and password are required.", code := "MISSING_CREDENTIALS" }

def invalidCredentialsError : AppError :=
  { status := 401, message := "Invalid username or password.", code := "INVALID_CREDENTIALS" }

def totpRequiredError : AppError :=
  { status := 401, message := "Two-factor code is required.", code := "TOTP_REQUIRED" }

/-- The success value of `POST /auth/login`: the `{user}` response body plus
the `mfaVerified` bit embedded in the freshly issued session token. -/
structure LoginOk where
  user : AuthIdentity
  tokenMfaVerified : Bool
deriving Repr, DecidableEq

/-- The `POST /auth/login` handler from auth-routes.js, up to the issued
session token.  `otp` is the optional request field (`none` or the empty
string is falsy, triggering `TOTP_REQUIRED` for 2FA-enabled admins).  The
audit append that follows on success does not affect the response. -/
def loginRoute (cmp : String → String → Bool) (decrypt : String → String)
    (totpVerify : String → String → Bool) (credSt : CredState) (twoSt : TwoFactorState)
    (username password : String) (otp : Option String) : Except AppError LoginOk :=
  if username = "" || password = "" then Except.error missingCredentialsError
  else
    match authenticateUser cmp credSt username password with
    | none => Except.error invalidCredentialsError
    | some user =>
      let mfaStep : Except AppError Bool :=
        if adminRoles.contains user.role then
          if hasTwoFactorEnabled twoSt user.username then
            match otp with
            | none => Except.error totpRequiredError
            | some otpValue =>
              if otpValue = "" then Except.error totpRequiredError
              else
                (verifyTwoFactorForLogin decrypt totpVerify twoSt user.username otpValue).map
                  (fun _ => true)
          else Except.ok false
        else Except.ok false
      match mfaStep with
      | Except.error e => Except.error e
      | Except.ok mfaVerified => Except.ok { user := user, tokenMfaVerified := mfaVerified }

/-- The admin routes registered by `createAdminRouter`, in source order. -/
inductive AdminRoute where
  | twoFaStatus
  | twoFaSetup
  | twoFaVerify
  | twoFaCancel
  | twoFaDisable
  | twoFaReset
  | analyticsTimeline
  | analyticsPerUser
  | usersList
  | notificationsList
  | usersCreate
  | usersUpdate
  | usersDelete
  | usersPromote
  | auditLogs
  | auditExportCsv
  | systemStorage
  | backupsRun
deriving Repr, DecidableEq

/-- True for the six 2FA management routes, which `createAdminRouter` registers
before the `admin2faEnforce` gate middleware is installed. -/
def registeredBeforeEnforceGate : AdminRoute → Bool
  | AdminRoute.twoFaStatus => true
  | AdminRoute.twoFaSetup => true
  | AdminRoute.twoFaVerify => true
  | AdminRoute.twoFaCancel => true
  | AdminRoute.twoFaDisable => true
  | AdminRoute.twoFaReset => true
  | _ => false

/-- The extra per-route `requireRoles` guard (primary-admin-only routes). -/
def routeRequiredRole : AdminRoute → Option Role
  | AdminRoute.twoFaReset => some Role.primary_admin
  | AdminRoute.usersCreate => some Role.primary_admin
  | AdminRoute.usersUpdate => some Role.primary_admin
  | AdminRoute.usersDelete => some Role.primary_admin
  | AdminRoute.usersPromote => some Role.primary_admin
  | _ => none

def forbiddenError : AppError :=
  { status := 403, message := "Insufficient permissions.", code := "FORBIDDEN" }

def admin2faSetupRequiredError : AppError :=
  { status := 403, message := "Admin must enable two-factor authentication.", code := "ADMIN_2FA_SETUP_REQUIRED" }

def mfaRequiredError : AppError :=
  { status := 401, message := "Two-factor authentication is required.", code := "MFA_REQUIRED" }

/-- Middleware pipeline outcome: either some middleware rejected the request
with an `AppError`, or the route handler was reached. -/
inductive AdminOutcome where
  | rejected (e : AppError)
  | handled (route : AdminRoute)
deriving Repr, DecidableEq

/-- The per-route `requireRoles` guard followed by the handler. -/
def runRouteHandler (u : AuthUser) (route : AdminRoute) : AdminOutcome :=
  match routeRequiredRole route with
  | some requiredRole =>
    if [requiredRole].contains u.role then AdminOutcome.handled route
    else AdminOutcome.rejected forbiddenError
  | none => AdminOutcome.handled route

/-- The `createAdminRouter` middleware pipeline from the module after
`authenticateRequest` has resolved `req.user = u`: the router-wide
`requireRoles(...ADMIN_ROLES)`, then, only for routes registered after it and
only when `admin2faEnforce` is set, the 2FA enforcement gate
(`ADMIN_2FA_SETUP_REQUIRED` / `MFA_REQUIRED`), then the route itself. -/
def adminRouterDispatch (enforce2fa : Bool) (twoSt : TwoFactorState) (u : AuthUser)
    (route : AdminRoute) : AdminOutcome :=
  if !(adminRoles.contains u.role) then AdminOutcome.rejected forbiddenError
  else if registeredBeforeEnforceGate route then runRouteHandler u route
  else if enforce2fa then
    if !(hasTwoFactorEnabled twoSt u.username) then AdminOutcome.rejected admin2faSetupRequiredError
    else if !u.mfaVerified then AdminOutcome.rejected mfaRequiredError
    else runRouteHandler u route
  else runRouteHandler u route

/-- One character of the `[\r\n,]` class stripped by the log sanitizers. -/
def isLogSeparatorChar (c : Char) : Bool :=
  c == '\r' || c == '\n' || c == ','

/-- Replace each maximal run of `[\r\n,]` with a single space (the
`replace(/[\r\n,]+/gu, " ")` step of `sanitizeSegment`). -/
def collapseSeparatorRuns : List Char → List Char
  | [] => []
  | [c] => [if isLogSeparatorChar c then ' ' else c]
  | c1 :: c2 :: rest =>
    if isLogSeparatorChar c1 && isLogSeparatorChar c2 then
      collapseSeparatorRuns (c2 :: rest)
    else
      (if isLogSeparatorChar c1 then ' ' else c1) :: collapseSeparatorRuns (c2 :: rest)

/-- `sanitizeSegment` shared by activity-service and notification-service:
collapse newline/comma runs to spaces, then trim. -/
def sanitizeSegment (value : String) : String :=
  trimString (String.mk (collapseSeparatorRuns value.toList))

/-- A wall-clock instant as the fields read off a JS `Date` (month already
1-based, as formatted). -/
structure LogDate where
  year : Nat
  month : Nat
  day : Nat
  hours : Nat
  minutes : Nat
  seconds : Nat
deriving Repr, DecidableEq

/-- The `pad` helper of activity-service: `String(value).padStart(2, "0")`. -/
def pad2 (value : Nat) : String :=
  let s := toString value
  if s.length < 2 then "0" ++ s else s

/-- `formatLogTimestamp` from activity-service: `YYYY-MM-DD HH:mm:ss`. -/
def formatLogTimestamp (d : LogDate) : String :=
  toString d.year ++ "-" ++ pad2 d.month ++ "-" ++ pad2 d.day ++ " " ++
    pad2 d.hours ++ ":" ++ pad2 d.minutes ++ ":" ++ pad2 d.seconds

/-- The line appended by `logUserActivity` (activity-service). -/
def activityLogLine (d : LogDate) (username action ipAddress : String) : String :=
  formatLogTimestamp d ++ ", " ++ sanitizeSegment username ++ ", " ++ sanitizeSegment action ++
    ", " ++ sanitizeSegment (if ipAddress = "" then "unknown" else ipAddress)

/-- One line appended by `recordActivityNotification` (notification-service). -/
def notificationLogLine (d : LogDate) (actor action adminUsername : String) : String :=
  formatLogTimestamp d ++ ", " ++ sanitizeSegment actor ++ ", " ++ sanitizeSegment action ++
    ", " ++ sanitizeSegment adminUsername

/-- The two append-only logs (user_activity_log and admin_notifications). -/
structure LogState where
  activityLog : List String
  notificationLog : List String
deriving Repr, DecidableEq

/-- `logUserActivity` from activity-service: append one line. -/
def logUserActivity (logs : LogState) (d : LogDate) (username action ipAddress : String) :
    LogState :=
  { logs with activityLog := logs.activityLog ++ [activityLogLine d username action ipAddress] }

/-- `recordActivityNotification` from notification-service: compute the current
admin recipient list and append one durable line per recipient (the live
WebSocket push that follows is fire-and-forget and writes nothing). -/
def recordActivityNotification (credSt : CredState) (logs : LogState) (d : LogDate)
    (username action : String) : LogState :=
  let adminUsernames := listAdminUsernames credSt
  if adminUsernames.isEmpty then logs
  else
    { logs with notificationLog := logs.notificationLog ++
        adminUsernames.map (fun adminUsername => notificationLogLine d username action adminUsername) }

/-- `recordUserAction` from audit-service: one activity-log append, then the
notification fan-out, both with the same captured timestamp. -/
def recordUserAction (credSt : CredState) (logs : LogState) (d : LogDate)
    (username action ipAddress : String) : LogState :=
  recordActivityNotification credSt (logUserActivity logs d username action ipAddress) d
    username action

/-- A parsed admin-notification log entry (`parseLogLine`). -/
structure NotificationEntry where
  id : String
  timestamp : String
  username : String
  action : String
  admin : String
deriving Repr, DecidableEq

/-- JS `split(",")` on the character list: comma-separated fields, empty
fields preserved. -/
def splitCommaChars : List Char → List Char → List (List Char)
  | [], acc => [acc.reverse]
  | c :: rest, acc =>
    if c == ',' then acc.reverse :: splitCommaChars rest []
    else splitCommaChars rest (c :: acc)

/-- JS `line.split(",")`. -/
def splitCommaString (line : String) : List String :=
  (splitCommaChars line.toList []).map String.mk

/-- `parseLogLine` from notification-service: split on commas, trim each
segment, require at least four fields, keep the first four. -/
def parseLogLine (line : String) (index : Nat) : Option NotificationEntry :=
  match (splitCommaString line).map trimString with
  | timestamp :: username :: action :: admin :: _ =>
    some { id := timestamp ++ "-" ++ username ++ "-" ++ toString index
           timestamp := timestamp
           username := username
           action := action
           admin := admin }
  | _ => none

/-- `lines.map(parseLogLine).filter(Boolean)`: parse with positional index. -/
def parseNotificationLines (lines : List String) : List NotificationEntry :=
  lines.enum.filterMap (fun p => parseLogLine p.2 p.1)

/-- `entry.timestamp.replace(" ", "T")`: JS `replace` with a string pattern
substitutes only the first occurrence. -/
def replaceFirstSpaceChar : List Char → List Char
  | [] => []
  | c :: rest => if c == ' ' then 'T' :: rest else c :: replaceFirstSpaceChar rest

/-- The ISO candidate string handed to `new Date(...)` in the since filter. -/
def toIsoCandidate (s : String) : String :=
  String.mk (replaceFirstSpaceChar s.toList)

/-- The parsed `since` bound: `since ? new Date(since) : null`, with an
invalid date (`NaN`) collapsing to no bound.  `parseDate` abstracts JS `Date`
parsing to epoch milliseconds (`none` for invalid dates). -/
def sinceBound (parseDate : String → Option Int) (since : Option String) : Option Int :=
  since.bind (fun s => if s = "" then none else parseDate s)

/-- The filter predicate of `getNotificationsForAdmin`: recipient match, and a
strict `entryDate > sinceDate` comparison when a usable bound exists (a NaN
entry date compares false). -/
def notificationMatches (parseDate : String → Option Int) (adminUsername : String)
    (sinceTs : Option Int) (entry : NotificationEntry) : Bool :=
  if entry.admin != adminUsername then false
  else
    match sinceTs with
    | none => true
    | some s =>
      match parseDate (toIsoCandidate entry.timestamp) with
      | none => false
      | some t => s < t

/-- JS `array.slice(-limit)`: the last `limit` elements, the whole array when
`limit` is `0` (since `slice(-0)` is `slice(0)`). -/
def sliceLast {α : Type} (l : List α) (limit : Nat) : List α :=
  if limit = 0 then l else l.drop (l.length - limit)

/-- `getNotificationsForAdmin` from notification-service: parse the durable
log, filter to the recipient and the strict since bound, keep the newest
`limit` entries, newest first. -/
def getNotificationsForAdmin (parseDate : String → Option Int) (lines : List String)
    (adminUsername : String) (limit : Nat) (since : Option String) : List NotificationEntry :=
  let parsed := parseNotificationLines lines
  let sinceTs := sinceBound parseDate since
  let filtered := parsed.filter (notificationMatches parseDate adminUsername sinceTs)
  (sliceLast filtered limit).reverse

/-- A task submitted to the file-store write queue: it reads the current store
state and either produces a value and the rewritten state or throws. -/
abbrev QueueTask (α : Type) := CredState → Except AppError (α × CredState)

/-- The process-wide sequential write queue of file-store (`enqueueWrite`):
`writeQueue = writeQueue.then(task, task)` runs each task only after the
previous one settles, success or failure, so queued tasks execute one at a
time in submission order and a failed task leaves the store untouched. -/
def runWriteQueue {α : Type} (tasks : List (QueueTask α)) (st : CredState) :
    List (Except AppError α) × CredState :=
  match tasks with
  | [] => ([], st)
  | task :: rest =>
    match task st with
    | Except.ok (r, st1) =>
      let next := runWriteQueue rest st1
      (Except.ok r :: next.1, next.2)
    | Except.error e =>
      let next := runWriteQueue rest st
      (Except.error e :: next.1, next.2)

/-- A `createUser` call as a queued task (role `user`, as in the spec's
write-serialization scenario). -/
def createUserTask (hash : String → String) (username password : String) :
    QueueTask UserSummary :=
  fun st => createUser hash st username password Role.user

theorem mapHas_eq_isSome_mapGet {α : Type} (m : List (String × α)) (k : String) :
    mapHas m k = (mapGet m k).isSome := by
  induction m with
  | nil => rfl
  | cons p rest ih =>
    by_cases hp : p.1 = k
    · simp [mapHas, mapGet, List.find?_cons_of_pos, hp]
    · have hne : (p.1 == k) = false := beq_false_of_ne hp
      have hfind : List.find? (fun q => q.1 == k) (p :: rest)
          = List.find? (fun q => q.1 == k) rest :=
        List.find?_cons_of_neg rest (by simp [hne])
      simp only [mapHas, mapGet, List.any_cons, hne, Bool.false_or, hfind]
      exact ih

theorem mapHas_of_mem {α : Type} {m : List (String × α)} {p : String × α} (hp : p ∈ m) :
    mapHas m p.1 = true := by
  simp only [mapHas, List.any_eq_true]
  exact ⟨p, hp, by simp⟩

theorem mem_of_mapGet_eq_some {α : Type} {m : List (String × α)} {k : String} {v : α}
    (h : mapGet m k = some v) : (k, v) ∈ m := by
  unfold mapGet at h
  cases hf : List.find? (fun p => p.1 == k) m with
  | none => rw [hf] at h; simp at h
  | some q =>
    rw [hf] at h
    have hq := List.find?_some hf
    have hmem := List.mem_of_find?_eq_some hf
    cases q with
    | mk a b =>
      have ha : a = k := by simpa using hq
      have hb : b = v := by simpa using h
      rw [← ha, ← hb]
      exact hmem

theorem mapGet_map_replace_self {α : Type} (m : List (String × α)) (k : String) (v : α)
    (h : mapHas m k = true) :
    mapGet (m.map (fun p => if p.1 == k then (k, v) else p)) k = some v := by
  induction m with
  | nil => simp [mapHas] at h
  | cons p rest ih =>
    simp only [List.map_cons]
    by_cases hp : p.1 = k
    · rw [if_pos (by simp [hp])]
      unfold mapGet
      rw [List.find?_cons_of_pos _ (by simp)]
      rfl
    · have hne : (p.1 == k) = false := beq_false_of_ne hp
      rw [if_neg (by simp [hne])]
      have hrest : mapHas rest k = true := by simpa [mapHas, hne] using h
      unfold mapGet
      rw [List.find?_cons_of_neg _ (by simp [hne])]
      exact ih hrest

theorem mapGet_map_replace_ne {α : Type} (m : List (String × α)) (k k' : String) (v : α)
    (h : k' ≠ k) :
    mapGet (m.map (fun p => if p.1 == k then (k, v) else p)) k' = mapGet m k' := by
  induction m with
  | nil => rfl
  | cons p rest ih =>
    simp only [List.map_cons]
    by_cases hp : p.1 = k
    · have hkk : (k == k') = false := beq_false_of_ne (fun e => h e.symm)
      have hpk : (p.1 == k') = false := by rw [hp]; exact hkk
      rw [if_pos (by simp [hp])]
      unfold mapGet
      rw [List.find?_cons_of_neg _ (by simp [hkk]),
        List.find?_cons_of_neg _ (by simp [hpk])]
      exact ih
    · have hne : (p.1 == k) = false := beq_false_of_ne hp
      rw [if_neg (by simp [hne])]
      by_cases hp' : p.1 = k'
      · unfold mapGet
        rw [List.find?_cons_of_pos _ (by simp [hp']),
          List.find?_cons_of_pos _ (by simp [hp'])]
      · have hne' : (p.1 == k') = false := beq_false_of_ne hp'
        unfold mapGet
        rw [List.find?_cons_of_neg _ (by simp [hne']),
          List.find?_cons_of_neg _ (by simp [hne'])]
        exact ih

theorem mapGet_mapSet_self {α : Type} (m : List (String × α)) (k : String) (v : α) :
    mapGet (mapSet m k v) k = some v := by
  unfold mapSet
  by_cases h : mapHas m k = true
  · rw [if_pos h]
    exact mapGet_map_replace_self m k v h
  · rw [if_neg h]
    have hget : mapGet m k = none := by
      rw [mapHas_eq_isSome_mapGet] at h
      cases hm : mapGet m k with
      | none => rfl
      | some w => rw [hm] at h; simp at h
    unfold mapGet at hget ⊢
    cases hf : List.find? (fun p => p.1 == k) m with
    | none => simp [List.find?_append, hf, mapGet]
    | some q => rw [hf] at hget; simp at hget

theorem mapGet_mapSet_ne {α : Type} (m : List (String × α)) (k k' : String) (v : α)
    (h : k' ≠ k) : mapGet (mapSet m k v) k' = mapGet m k' := by
  unfold mapSet
  by_cases hh : mapHas m k = true
  · rw [if_pos hh]
    exact mapGet_map_replace_ne m k k' v h
  · rw [if_neg hh]
    have hkk : (k == k') = false := beq_false_of_ne (fun e => h e.symm)
    unfold mapGet
    simp [List.find?_append, hkk]

theorem mapHas_mapSet_self {α : Type} (m : List (String × α)) (k : String) (v : α) :
    mapHas (mapSet m k v) k = true := by
  rw [mapHas_eq_isSome_mapGet, mapGet_mapSet_self]
  rfl

theorem mapHas_mapSet_ne {α : Type} (m : List (String × α)) (k k' : String) (v : α)
    (h : k' ≠ k) : mapHas (mapSet m k v) k' = mapHas m k' := by
  rw [mapHas_eq_isSome_mapGet, mapGet_mapSet_ne m k k' v h, ← mapHas_eq_isSome_mapGet]

theorem mem_mapDelete {α : Type} {m : List (String × α)} {k : String} {p : String × α} :
    p ∈ mapDelete m k ↔ p ∈ m ∧ ¬p.1 = k := by
  simp [mapDelete, List.mem_filter]

theorem mapHas_append {α : Type} (a b : List (String × α)) (k : String) :
    mapHas (a ++ b) k = (mapHas a k || mapHas b k) := by
  simp [mapHas]

theorem mem_serializeCredentialMap {m : List (String × String)} {k v : String}
    (h : (k, v) ∈ m) : (k ++ ":" ++ v) ∈ serializeCredentialMap m := by
  unfold serializeCredentialMap
  exact List.mem_map.mpr ⟨(k, v), List.mem_mergeSort.mpr h, rfl⟩

/-- Claim C1: `authenticateToken` re-derives the role from the credential
store at verification time: once the signature check yields a payload, the
request fails with `USER_NOT_AVAILABLE` exactly when the account named by the
token's subject is missing or deactivated at that moment, and on success the
returned role is the one freshly derived by `getUserByUsername` — the token
contributes only its subject and MFA bit, never a role. -/
theorem authenticateToken_fresh_role (jwtVerify : String → Option TokenPayload)
    (st : CredState) (token : String) (payload : TokenPayload)
    (htok : ¬token = "") (hverify : jwtVerify token = some payload)
    (hsub : ¬lowercaseString payload.sub = "") :
    (getUserByUsername st (lowercaseString payload.sub) = none →
      authenticateToken jwtVerify st (some token) = Except.error userNotAvailableError)
    ∧ (∀ account : Account, getUserByUsername st (lowercaseString payload.sub) = some account →
      account.isActive = false →
      authenticateToken jwtVerify st (some token) = Except.error userNotAvailableError)
    ∧ (∀ account : Account, getUserByUsername st (lowercaseString payload.sub) = some account →
      account.isActive = true →
      authenticateToken jwtVerify st (some token) =
        Except.ok { username := account.username, role := account.role
                    mfaVerified := payload.mfa }) := by
  refine ⟨?_, ?_, ?_⟩
  · intro hnone
    simp [authenticateToken, htok, hverify, hsub, hnone]
  · intro account hacc hinactive
    simp [authenticateToken, htok, hverify, hsub, hacc, hinactive]
  · intro account hacc hactive
    simp [authenticateToken, htok, hverify, hsub, hacc, hactive]

def c1State : CredState :=
  { users := [("bob", "h1")], admins := [], primaryAdmins := [], deactivatedUsers := ["bob"] }

def c1Verify : String → Option TokenPayload :=
  fun t => if t = "tok" then some { sub := "bob", typ := "session", mfa := false } else none

theorem authenticateToken_fresh_role_witness :
    authenticateToken c1Verify c1State (some "tok") = Except.error userNotAvailableError := by
  have h := authenticateToken_fresh_role c1Verify c1State "tok"
    { sub := "bob", typ := "session", mfa := false } (by decide) (by rfl) (by decide)
  exact h.2.1
    { username := "bob", role := Role.user, passwordHash := "h1", isActive := false }
    (by rfl) rfl

def c3State : CredState :=
  { users := [], admins := [("root", "h0")], primaryAdmins := ["root"], deactivatedUsers := [] }

/-- Claim C3 counterexample: deleting the primary admin does fail with the
protection error, but that error is HTTP 400 `PRIMARY_ADMIN_PROTECTED`, not an
error of the 403 authorization-failure class the claim names. -/
theorem deleteUser_primary_admin_not_403 :
    deleteUser c3State "root" = Except.error primaryAdminProtectedError
    ∧ primaryAdminProtectedError.status = 400
    ∧ ¬primaryAdminProtectedError.status = 403 := by
  exact ⟨rfl, rfl, by decide⟩

/-- Claim C3 (amended): for every username of valid pattern that is in the
primary-admins set, `deleteUser` always fails — regardless of caller, the
primary admin included — with the HTTP 400 `PRIMARY_ADMIN_PROTECTED` error,
thrown before any credential file is rewritten, so every file is unchanged. -/
theorem deleteUser_primary_admin_protected (st : CredState) (rawU : String)
    (hpat : usernameMatchesPattern (normalizeUsername rawU) = true)
    (hprimary : setHas st.primaryAdmins (normalizeUsername rawU) = true) :
    deleteUser st rawU = Except.error primaryAdminProtectedError := by
  simp [deleteUser, validateUsername, hpat, hprimary]

theorem deleteUser_primary_admin_protected_witness :
    deleteUser c3State "root" = Except.error primaryAdminProtectedError :=
  deleteUser_primary_admin_protected c3State "root" (by decide) (by rfl)

def c4Admin : AuthUser :=
  { username := "alice", role := Role.admin, mfaVerified := false }

/-- Claim C4 counterexample: with enforcement on, an authenticated admin
without 2FA enabled still reaches the 2FA status route, because the six 2FA
management routes are registered before the enforcement gate — so not every
admin route behind `requireRoles` rejects such a caller with
`ADMIN_2FA_SETUP_REQUIRED`. -/
theorem adminRouter_2fa_routes_escape_gate :
    hasTwoFactorEnabled [] c4Admin.username = false
    ∧ adminRouterDispatch true [] c4Admin AdminRoute.twoFaStatus =
        AdminOutcome.handled AdminRoute.twoFaStatus
    ∧ ¬adminRouterDispatch true [] c4Admin AdminRoute.twoFaStatus =
        AdminOutcome.rejected admin2faSetupRequiredError := by
  refine ⟨rfl, rfl, ?_⟩
  intro h
  exact absurd h (by decide)

/-- Claim C4 (amended): when the global 2FA enforcement flag is set, every
admin route registered after the enforcement gate — all admin routes except
the six 2FA management routes — rejects an authenticated admin-class caller
without 2FA enabled with `ADMIN_2FA_SETUP_REQUIRED` (403), and rejects an
admin-class caller with 2FA enabled whose current token carries
`mfaVerified = false` with `MFA_REQUIRED` (401). -/
theorem adminRouter_enforce_gate (twoSt : TwoFactorState) (u : AuthUser)
    (route : AdminRoute) (hrole : adminRoles.contains u.role = true)
    (hpost : registeredBeforeEnforceGate route = false) :
    (hasTwoFactorEnabled twoSt u.username = false →
      adminRouterDispatch true twoSt u route = AdminOutcome.rejected admin2faSetupRequiredError)
    ∧ (hasTwoFactorEnabled twoSt u.username = true → u.mfaVerified = false →
      adminRouterDispatch true twoSt u route = AdminOutcome.rejected mfaRequiredError)
    ∧ admin2faSetupRequiredError.status = 403
    ∧ mfaRequiredError.status = 401 := by
  have hmem : u.role ∈ adminRoles := by simpa using hrole
  refine ⟨?_, ?_, rfl, rfl⟩
  · intro hno
    simp [adminRouterDispatch, hmem, hpost, hno]
  · intro hyes hmfa
    simp [adminRouterDispatch, hmem, hpost, hyes, hmfa]

def c4EnabledSt : TwoFactorState :=
  [("alice", { username := "alice", secret := "v1:x", enabled := true,
               createdAt := "t0", enabledAt := some "t1" })]

theorem adminRouter_enforce_gate_witness :
    adminRouterDispatch true [] c4Admin AdminRoute.usersList =
      AdminOutcome.rejected admin2faSetupRequiredError
    ∧ adminRouterDispatch true c4EnabledSt c4Admin AdminRoute.usersList =
      AdminOutcome.rejected mfaRequiredError :=
  ⟨(adminRouter_enforce_gate [] c4Admin AdminRoute.usersList rfl rfl).1 rfl,
   (adminRouter_enforce_gate c4EnabledSt c4Admin AdminRoute.usersList rfl rfl).2.1 rfl rfl⟩

/-- Claim C5: for a username with a pending (unconfirmed) 2FA record holding a
readable secret, `enableTwoFactor` with a format-valid OTP that passes the
TOTP check transitions the status from `pending` to `enabled` and sets
`enabledAt`; with a 6-digit code that fails the TOTP check it errors with
`TOTP_INVALID` and writes nothing; and with no pending record — absent or
already enabled — it errors with `NO_PENDING_2FA`. -/
theorem enableTwoFactor_confirm (decrypt : String → String)
    (totpVerify : String → String → Bool) (now : String) (st : TwoFactorState)
    (rawU rawOtp otp : String) (hotp : validateOtp rawOtp = Except.ok otp)
    (hname : ¬normalizeUsername rawU = "") :
    (∀ record : TwoFactorRecord,
      mapGet st (normalizeUsername rawU) = some record → record.enabled = false →
      ¬decrypt record.secret = "" →
      (totpVerify (decrypt record.secret) otp = true →
        getTwoFactorStatus st rawU =
          { status := TwoFactorStatusKind.pending, enabledAt := none }
        ∧ enableTwoFactor decrypt totpVerify now st rawU rawOtp =
          Except.ok ({ status := TwoFactorStatusKind.enabled, enabledAt := some now },
            mapSet st (normalizeUsername rawU)
              { record with enabled := true, enabledAt := some now })
        ∧ getTwoFactorStatus
            (mapSet st (normalizeUsername rawU)
              { record with enabled := true, enabledAt := some now }) rawU =
          { status := TwoFactorStatusKind.enabled, enabledAt := some now })
      ∧ (totpVerify (decrypt record.secret) otp = false →
        enableTwoFactor decrypt totpVerify now st rawU rawOtp =
          Except.error totpInvalidError))
    ∧ (mapGet st (normalizeUsername rawU) = none →
      enableTwoFactor decrypt totpVerify now st rawU rawOtp =
        Except.error noPending2faError)
    ∧ (∀ record : TwoFactorRecord,
      mapGet st (normalizeUsername rawU) = some record → record.enabled = true →
      enableTwoFactor decrypt totpVerify now st rawU rawOtp =
        Except.error noPending2faError) := by
  refine ⟨?_, ?_, ?_⟩
  · intro record hrec hpending hsecret
    constructor
    · intro hok
      refine ⟨?_, ?_, ?_⟩
      · simp [getTwoFactorStatus, hname, hrec, hpending]
      · simp [enableTwoFactor, hotp, hrec, hpending, hsecret, hok]
      · simp [getTwoFactorStatus, hname, mapGet_mapSet_self]
    · intro hbad
      simp [enableTwoFactor, hotp, hrec, hpending, hsecret, hbad]
  · intro hnone
    simp [enableTwoFactor, hotp, hnone]
  · intro record hrec henabled
    simp [enableTwoFactor, hotp, hrec, henabled]

def c5PendingSt : TwoFactorState :=
  [("alice", { username := "alice", secret := "v1:x", enabled := false,
               createdAt := "t0", enabledAt := none })]

def c5Decrypt : String → String :=
  fun s => if s = "v1:x" then "SECRET" else ""

def c5Verify : String → String → Bool :=
  fun secret otp => secret = "SECRET" && otp = "123456"

theorem enableTwoFactor_confirm_witness :
    enableTwoFactor c5Decrypt c5Verify "t1" c5PendingSt "alice" "123456" =
      Except.ok ({ status := TwoFactorStatusKind.enabled, enabledAt := some "t1" },
        mapSet c5PendingSt (normalizeUsername "alice")
          { username := "alice", secret := "v1:x", enabled := true,
            createdAt := "t0", enabledAt := some "t1" }) := by
  have h := enableTwoFactor_confirm c5Decrypt c5Verify "t1" c5PendingSt "alice" "123456"
    "123456" (by rfl) (by decide)
  exact ((h.1 { username := "alice", secret := "v1:x", enabled := false,
                createdAt := "t0", enabledAt := none }
      (by rfl) rfl (by decide)).1 (by rfl)).2.1

/-- Claim C6: whenever the account is missing, deactivated, or the password
hash does not match, `authenticateUser` fails closed returning `none` rather
than throwing, and the login endpoint maps every such case to the single 401
`INVALID_CREDENTIALS` code — the same code for a wrong username and a wrong
password. -/
theorem login_fails_closed_invalid_credentials (cmp : String → String → Bool)
    (decrypt : String → String) (totpVerify : String → String → Bool)
    (credSt : CredState) (twoSt : TwoFactorState) (username password : String)
    (otp : Option String) (hu : ¬username = "") (hp : ¬password = "")
    (hfail : getUserByUsername credSt username = none
      ∨ (∃ r : Account, getUserByUsername credSt username = some r ∧ r.isActive = false)
      ∨ (∃ r : Account, getUserByUsername credSt username = some r ∧ r.isActive = true
          ∧ cmp password r.passwordHash = false)) :
    authenticateUser cmp credSt username password = none
    ∧ loginRoute cmp decrypt totpVerify credSt twoSt username password otp =
        Except.error invalidCredentialsError
    ∧ invalidCredentialsError.status = 401 := by
  have hauth : authenticateUser cmp credSt username password = none := by
    rcases hfail with h | ⟨r, hr, hact⟩ | ⟨r, hr, hact, hcmp⟩
    · simp [authenticateUser, h]
    · simp [authenticateUser, hr, hact]
    · simp [authenticateUser, hr, hact, hcmp]
  refine ⟨hauth, ?_, rfl⟩
  simp [loginRoute, hu, hp, hauth]

def c6State : CredState :=
  { users := [], admins := [], primaryAdmins := [], deactivatedUsers := [] }

theorem login_fails_closed_witness :
    authenticateUser (fun _ _ => true) c6State "ghost" "any-password" = none
    ∧ loginRoute (fun _ _ => true) (fun s => s) (fun _ _ => true) c6State []
        "ghost" "any-password" none = Except.error invalidCredentialsError
    ∧ invalidCredentialsError.status = 401 :=
  login_fails_closed_invalid_credentials (fun _ _ => true) (fun s => s) (fun _ _ => true)
    c6State [] "ghost" "any-password" none (by decide) (by decide) (Or.inl (by rfl))

/-- Claim C7: `recordUserAction` appends exactly one line to the activity log
and exactly K lines to the admin-notification log, where K is the number of
active (non-deactivated) admin-class accounts at that moment — one line per
admin recipient, all built from the same formatted timestamp, sanitized actor
and sanitized action. -/
theorem recordUserAction_fanout (credSt : CredState) (logs : LogState) (d : LogDate)
    (username action ipAddress : String) :
    (recordUserAction credSt logs d username action ipAddress).activityLog =
      logs.activityLog ++ [activityLogLine d username action ipAddress]
    ∧ (recordUserAction credSt logs d username action ipAddress).notificationLog =
      logs.notificationLog ++ (listAdminUsernames credSt).map
        (fun adminUsername => notificationLogLine d username action adminUsername)
    ∧ (recordUserAction credSt logs d username action ipAddress).notificationLog.length =
      logs.notificationLog.length + (listAdminUsernames credSt).length := by
  unfold recordUserAction recordActivityNotification logUserActivity
  by_cases he : (listAdminUsernames credSt).isEmpty = true
  · have hnil : listAdminUsernames credSt = [] := by
      cases hl : listAdminUsernames credSt with
      | nil => rfl
      | cons a rest => rw [hl] at he; simp [List.isEmpty] at he
    simp [he, hnil]
  · simp [he]

theorem validateUsername_ok {rawU username : String}
    (h : validateUsername rawU = Except.ok username) :
    username = normalizeUsername rawU
    ∧ usernameMatchesPattern (normalizeUsername rawU) = true := by
  simp only [validateUsername] at h
  split at h
  · exact ⟨(Except.ok.inj h).symm, by assumption⟩
  · exact Except.noConfusion h

theorem ne_of_mapHas_eq_false {α : Type} {m : List (String × α)} {k : String}
    (h : mapHas m k = false) {p : String × α} (hp : p ∈ m) : ¬p.1 = k := by
  intro he
  have hmem := mapHas_of_mem hp
  rw [he, h] at hmem
  cases hmem

/-- The set-exclusivity invariant: no username occupies both credential maps. -/
def credSetsDisjoint (st : CredState) : Bool :=
  st.users.all (fun entry => !(mapHas st.admins entry.1))

theorem createUser_ok_shape (hash : String → String) (st : CredState) (rawU pw : String)
    (role : Role) (s : UserSummary) (st' : CredState)
    (hrun : createUser hash st rawU pw role = Except.ok (s, st')) :
    mapHas st.users (normalizeUsername rawU) = false
    ∧ mapHas st.admins (normalizeUsername rawU) = false
    ∧ ((role = Role.admin ∧
        st' = { st with
                admins := mapSet st.admins (normalizeUsername rawU) (hash pw)
                deactivatedUsers := setDelete st.deactivatedUsers (normalizeUsername rawU) })
      ∨ (¬role = Role.admin ∧
        st' = { st with
                users := mapSet st.users (normalizeUsername rawU) (hash pw)
                deactivatedUsers := setDelete st.deactivatedUsers (normalizeUsername rawU) })) := by
  unfold createUser at hrun
  split at hrun
  · exact Except.noConfusion hrun
  · rename_i username hval
    obtain ⟨huser, hpat⟩ := validateUsername_ok hval
    subst huser
    split at hrun
    · exact Except.noConfusion hrun
    · split at hrun
      · exact Except.noConfusion hrun
      · split at hrun
        · exact Except.noConfusion hrun
        · rename_i hguard
          have hg : mapHas st.users (normalizeUsername rawU) = false ∧
              mapHas st.admins (normalizeUsername rawU) = false := by
            constructor
            · cases hu : mapHas st.users (normalizeUsername rawU) with
              | false => rfl
              | true => exact absurd (by simp [hu]) hguard
            · cases ha : mapHas st.admins (normalizeUsername rawU) with
              | false => rfl
              | true => exact absurd (by simp [ha]) hguard
          refine ⟨hg.1, hg.2, ?_⟩
          by_cases hrole : role = Role.admin
          · left
            refine ⟨hrole, ?_⟩
            rw [hrole] at hrun
            simp only [beq_self_eq_true, if_true] at hrun
            exact (Prod.mk.inj (Except.ok.inj hrun)).2.symm
          · right
            refine ⟨hrole, ?_⟩
            have hne : (role == Role.admin) = false := beq_false_of_ne hrole
            rw [hne] at hrun
            simp only [Bool.false_eq_true, if_false] at hrun
            exact (Prod.mk.inj (Except.ok.inj hrun)).2.symm

theorem promoteUserToAdmin_ok_shape (st : CredState) (rawU : String) (s : UserSummary)
    (st' : CredState) (hrun : promoteUserToAdmin st rawU = Except.ok (s, st')) :
    mapHas st.admins (normalizeUsername rawU) = false
    ∧ ∃ h : String, mapGet st.users (normalizeUsername rawU) = some h
      ∧ s = { username := normalizeUsername rawU, role := Role.admin, isActive := true }
      ∧ st' = { st with users := mapDelete st.users (normalizeUsername rawU)
                        admins := mapSet st.admins (normalizeUsername rawU) h } := by
  unfold promoteUserToAdmin at hrun
  split at hrun
  · exact Except.noConfusion hrun
  · rename_i username hval
    obtain ⟨huser, hpat⟩ := validateUsername_ok hval
    subst huser
    split at hrun
    · exact Except.noConfusion hrun
    · rename_i hnadmin
      split at hrun
      · exact Except.noConfusion hrun
      · rename_i passwordHash hget
        have hpair := Prod.mk.inj (Except.ok.inj hrun)
        refine ⟨by simpa using hnadmin, passwordHash, hget, hpair.1.symm, hpair.2.symm⟩

theorem createUser_preserves_disjoint (hash : String → String) (st : CredState)
    (rawU pw : String) (role : Role) (s : UserSummary) (st' : CredState)
    (hrun : createUser hash st rawU pw role = Except.ok (s, st'))
    (hdisj : credSetsDisjoint st = true) : credSetsDisjoint st' = true := by
  obtain ⟨hu, ha, hshape⟩ := createUser_ok_shape hash st rawU pw role s st' hrun
  rw [credSetsDisjoint, List.all_eq_true] at hdisj
  rcases hshape with ⟨_, hst⟩ | ⟨_, hst⟩
  · subst hst
    rw [credSetsDisjoint, List.all_eq_true]
    intro p hp
    have hne : ¬p.1 = normalizeUsername rawU := ne_of_mapHas_eq_false hu hp
    have hold := hdisj p hp
    rw [Bool.not_eq_true'] at hold ⊢
    rw [mapHas_mapSet_ne st.admins (normalizeUsername rawU) p.1 (hash pw) hne]
    exact hold
  · subst hst
    rw [credSetsDisjoint, List.all_eq_true]
    intro p hp
    rw [mapSet, if_neg (by simp [hu])] at hp
    rcases List.mem_append.mp hp with hmem | hnew
    · exact hdisj p hmem
    · have hpeq : p = (normalizeUsername rawU, hash pw) := by simpa using hnew
      rw [hpeq, Bool.not_eq_true']
      exact ha

theorem promote_preserves_disjoint (st : CredState) (rawU : String) (s : UserSummary)
    (st' : CredState) (hrun : promoteUserToAdmin st rawU = Except.ok (s, st'))
    (hdisj : credSetsDisjoint st = true) : credSetsDisjoint st' = true := by
  obtain ⟨ha, h, hget, hs, hst⟩ := promoteUserToAdmin_ok_shape st rawU s st' hrun
  subst hst
  rw [credSetsDisjoint, List.all_eq_true] at hdisj ⊢
  intro p hp
  obtain ⟨hpm, hpne⟩ := mem_mapDelete.mp hp
  have hold := hdisj p hpm
  rw [Bool.not_eq_true'] at hold ⊢
  rw [mapHas_mapSet_ne st.admins (normalizeUsername rawU) p.1 h hpne]
  exact hold

/-- Claim C2: a username never occupies both credential sets at once:
`createUser` refuses with `USER_EXISTS` when a (valid) username occupies
either set, both `createUser` and `promoteUserToAdmin` preserve users/admins
disjointness, and `promoteUserToAdmin` atomically moves the entry with the
identical password hash — failing `ALREADY_ADMIN` when already an admin and
`USER_NOT_FOUND` when not among regular users. -/
theorem credential_sets_exclusive :
    (∀ (hash : String → String) (st : CredState) (rawU pw : String) (role : Role),
      usernameMatchesPattern (normalizeUsername rawU) = true →
      10 ≤ pw.length →
      (role = Role.user ∨ role = Role.admin) →
      (mapHas st.users (normalizeUsername rawU) = true ∨
        mapHas st.admins (normalizeUsername rawU) = true) →
      createUser hash st rawU pw role = Except.error userExistsError)
    ∧ (∀ (hash : String → String) (st : CredState) (rawU pw : String) (role : Role)
        (s : UserSummary) (st' : CredState),
      createUser hash st rawU pw role = Except.ok (s, st') →
      credSetsDisjoint st = true → credSetsDisjoint st' = true)
    ∧ (∀ (st : CredState) (rawU : String),
      usernameMatchesPattern (normalizeUsername rawU) = true →
      mapHas st.admins (normalizeUsername rawU) = true →
      promoteUserToAdmin st rawU = Except.error alreadyAdminError)
    ∧ (∀ (st : CredState) (rawU : String),
      usernameMatchesPattern (normalizeUsername rawU) = true →
      mapHas st.admins (normalizeUsername rawU) = false →
      mapGet st.users (normalizeUsername rawU) = none →
      promoteUserToAdmin st rawU = Except.error promoteNotFoundError)
    ∧ (∀ (st : CredState) (rawU : String) (s : UserSummary) (st' : CredState),
      promoteUserToAdmin st rawU = Except.ok (s, st') →
      (∃ h : String, mapGet st.users (normalizeUsername rawU) = some h
        ∧ mapGet st'.admins (normalizeUsername rawU) = some h)
      ∧ mapHas st'.users (normalizeUsername rawU) = false
      ∧ (credSetsDisjoint st = true → credSetsDisjoint st' = true)) := by
  refine ⟨?_, ?_, ?_, ?_, ?_⟩
  · intro hash st rawU pw role hpat hlen hrole hocc
    have hroleb : (role == Role.user || role == Role.admin) = true := by
      rcases hrole with h | h <;> simp [h]
    have hoccb : (mapHas st.users (normalizeUsername rawU) ||
        mapHas st.admins (normalizeUsername rawU)) = true := by
      rcases hocc with h | h <;> simp [h]
    simp [createUser, validateUsername, hpat, validatePassword, Nat.not_lt.mpr hlen,
      hroleb, hoccb]
  · intro hash st rawU pw role s st' hrun hdisj
    exact createUser_preserves_disjoint hash st rawU pw role s st' hrun hdisj
  · intro st rawU hpat hadmin
    simp [promoteUserToAdmin, validateUsername, hpat, hadmin]
  · intro st rawU hpat hnadmin hnone
    simp [promoteUserToAdmin, validateUsername, hpat, hnadmin, hnone]
  · intro st rawU s st' hrun
    obtain ⟨hnadmin, h, hget, hs, hst⟩ := promoteUserToAdmin_ok_shape st rawU s st' hrun
    refine ⟨⟨h, hget, ?_⟩, ?_, ?_⟩
    · rw [hst]
      exact mapGet_mapSet_self st.admins (normalizeUsername rawU) h
    · rw [hst]
      rw [mapHas_eq_isSome_mapGet]
      have : mapGet (mapDelete st.users (normalizeUsername rawU))
          (normalizeUsername rawU) = none := by
        cases hg : mapGet (mapDelete st.users (normalizeUsername rawU))
            (normalizeUsername rawU) with
        | none => rfl
        | some v =>
          have hmem := mem_of_mapGet_eq_some hg
          exact absurd rfl (mem_mapDelete.mp hmem).2
      rw [this]
      rfl
    · intro hdisj
      exact promote_preserves_disjoint st rawU s st' hrun hdisj

def c2StateOccupied : CredState :=
  { users := [("bob", "h1")], admins := [], primaryAdmins := [], deactivatedUsers := [] }

theorem credential_sets_exclusive_witness :
    createUser (fun _ => "H") c2StateOccupied "bob" "password1234" Role.user =
      Except.error userExistsError
    ∧ credSetsDisjoint
        { users := [], admins := [("bob", "H")], primaryAdmins := [],
          deactivatedUsers := [] } = true
    ∧ promoteUserToAdmin c2StateOccupied "ada" = Except.error promoteNotFoundError := by
  refine ⟨?_, ?_, ?_⟩
  · exact credential_sets_exclusive.1 (fun _ => "H") c2StateOccupied "bob" "password1234"
      Role.user (by decide) (by decide) (Or.inl rfl) (Or.inl (by rfl))
  · exact (credential_sets_exclusive.2.1 (fun _ => "H")
      { users := [], admins := [], primaryAdmins := [], deactivatedUsers := [] }
      "bob" "password1234" Role.admin
      { username := "bob", role := Role.admin, isActive := true }
      { users := [], admins := [("bob", "H")], primaryAdmins := [], deactivatedUsers := [] }
      (by rfl) (by rfl))
  · exact credential_sets_exclusive.2.2.2.1 c2StateOccupied "ada" (by decide)
      (by rfl) (by rfl)

/-- Claim C9: for a username in both the regular-users map and the deactivated
set, `promoteUserToAdmin` succeeds without consulting the deactivated set —
the deactivated set (and primary-admin set) are untouched and a subsequent
`getUserByUsername` still reports `isActive = false` — yet the promote call's
own return value unconditionally reports `isActive = true`. -/
theorem promote_ignores_deactivation (st : CredState) (rawU : String) (h : String)
    (hpat : usernameMatchesPattern (normalizeUsername rawU) = true)
    (hget : mapGet st.users (normalizeUsername rawU) = some h)
    (hnadmin : mapHas st.admins (normalizeUsername rawU) = false)
    (hdeact : setHas st.deactivatedUsers (normalizeUsername rawU) = true) :
    ∃ st' : CredState,
      promoteUserToAdmin st rawU =
        Except.ok ({ username := normalizeUsername rawU, role := Role.admin,
                     isActive := true }, st')
      ∧ st'.deactivatedUsers = st.deactivatedUsers
      ∧ st'.primaryAdmins = st.primaryAdmins
      ∧ (getUserByUsername st' rawU).map Account.isActive = some false := by
  refine ⟨{ st with users := mapDelete st.users (normalizeUsername rawU)
                    admins := mapSet st.admins (normalizeUsername rawU) h },
    ?_, rfl, rfl, ?_⟩
  · simp [promoteUserToAdmin, validateUsername, hpat, hnadmin, hget]
  · have hn : ¬normalizeUsername rawU = "" := by
      intro he
      rw [he] at hpat
      exact absurd hpat (by decide)
    have hadm : mapHas (mapSet st.admins (normalizeUsername rawU) h)
        (normalizeUsername rawU) = true :=
      mapHas_mapSet_self st.admins (normalizeUsername rawU) h
    by_cases hpm : setHas st.primaryAdmins (normalizeUsername rawU) = true
    · simp [getUserByUsername, resolveRoleForUsername, hn, hpm, hadm, hdeact]
    · have hpm' : setHas st.primaryAdmins (normalizeUsername rawU) = false := by
        cases hsv : setHas st.primaryAdmins (normalizeUsername rawU) with
        | false => rfl
        | true => exact absurd hsv hpm
      simp [getUserByUsername, resolveRoleForUsername, hn, hpm', hadm, hdeact]

def c9State : CredState :=
  { users := [("bob", "h1")], admins := [], primaryAdmins := [], deactivatedUsers := ["bob"] }

def c9PostState : CredState :=
  { users := [], admins := [("bob", "h1")], primaryAdmins := [], deactivatedUsers := ["bob"] }

theorem promote_ignores_deactivation_witness :
    promoteUserToAdmin c9State "bob" =
      Except.ok ({ username := "bob", role := Role.admin, isActive := true }, c9PostState)
    ∧ (getUserByUsername c9PostState "bob").map Account.isActive = some false := by
  obtain ⟨st', hrun, _, _, hactive⟩ :=
    promote_ignores_deactivation c9State "bob" "h1" (by decide) (by rfl) (by rfl) (by rfl)
  have hcalc : promoteUserToAdmin c9State "bob" =
      Except.ok ({ username := "bob", role := Role.admin, isActive := true }, c9PostState) := by
    rfl
  have hpair := Except.ok.inj ((hcalc.symm).trans hrun)
  have hst : c9PostState = st' := congrArg Prod.snd hpair
  exact ⟨hcalc, by rw [hst]; exact hactive⟩

theorem createUser_fresh (hash : String → String) (st : CredState) (rawU pw : String)
    (hpat : usernameMatchesPattern (normalizeUsername rawU) = true)
    (hlen : 10 ≤ pw.length)
    (hu : mapHas st.users (normalizeUsername rawU) = false)
    (ha : mapHas st.admins (normalizeUsername rawU) = false) :
    createUser hash st rawU pw Role.user =
      Except.ok ({ username := normalizeUsername rawU, role := Role.user, isActive := true },
        { st with users := mapSet st.users (normalizeUsername rawU) (hash pw)
                  deactivatedUsers := setDelete st.deactivatedUsers (normalizeUsername rawU) }) := by
  simp [createUser, validateUsername, hpat, validatePassword, Nat.not_lt.mpr hlen, hu, ha]

theorem runWriteQueue_createUsers_preserves (hash : String → String) (k : String) :
    ∀ (pairs : List (String × String)) (st : CredState),
    (∀ p ∈ pairs, ¬normalizeUsername p.1 = k) →
    mapGet (runWriteQueue (pairs.map (fun p => createUserTask hash p.1 p.2)) st).2.users k
      = mapGet st.users k := by
  intro pairs
  induction pairs with
  | nil => intro st _; rfl
  | cons p rest ih =>
    intro st hk
    have hkp : ¬normalizeUsername p.1 = k := hk p (List.mem_cons_self p rest)
    have hkrest : ∀ q ∈ rest, ¬normalizeUsername q.1 = k :=
      fun q hq => hk q (List.mem_cons_of_mem p hq)
    simp only [List.map_cons, runWriteQueue]
    cases hrun : createUserTask hash p.1 p.2 st with
    | ok pr =>
      obtain ⟨s, st1⟩ := pr
      have hshape := createUser_ok_shape hash st p.1 p.2 Role.user s st1 hrun
      rcases hshape.2.2 with ⟨habs, _⟩ | ⟨_, hst⟩
      · exact absurd habs (by decide)
      · subst hst
        rw [ih _ hkrest]
        exact mapGet_mapSet_ne st.users (normalizeUsername p.1) k (hash p.2)
          (fun he => hkp he.symm)
    | error e =>
      exact ih st hkrest

theorem runWriteQueue_createUsers_ok (hash : String → String) :
    ∀ (pairs : List (String × String)) (st : CredState),
    (∀ p ∈ pairs, usernameMatchesPattern (normalizeUsername p.1) = true ∧ 10 ≤ p.2.length) →
    (∀ p ∈ pairs, mapHas st.users (normalizeUsername p.1) = false ∧
      mapHas st.admins (normalizeUsername p.1) = false) →
    pairs.Pairwise (fun a b => ¬normalizeUsername a.1 = normalizeUsername b.1) →
    (∀ r ∈ (runWriteQueue (pairs.map (fun p => createUserTask hash p.1 p.2)) st).1,
      ∃ s : UserSummary, r = Except.ok s)
    ∧ (∀ p ∈ pairs,
      mapGet (runWriteQueue (pairs.map (fun p => createUserTask hash p.1 p.2)) st).2.users
        (normalizeUsername p.1) = some (hash p.2)) := by
  intro pairs
  induction pairs with
  | nil =>
    intro st _ _ _
    constructor
    · intro r hr
      simp [runWriteQueue] at hr
    · intro q hq
      simp at hq
  | cons p rest ih =>
    intro st hvalid hfresh hdist
    have hvp := hvalid p (List.mem_cons_self p rest)
    have hfp := hfresh p (List.mem_cons_self p rest)
    have hrun := createUser_fresh hash st p.1 p.2 hvp.1 hvp.2 hfp.1 hfp.2
    have hrels := (List.pairwise_cons.mp hdist).1
    have hdrest := (List.pairwise_cons.mp hdist).2
    have hfrest : ∀ q ∈ rest,
        mapHas (mapSet st.users (normalizeUsername p.1) (hash p.2))
          (normalizeUsername q.1) = false ∧
        mapHas st.admins (normalizeUsername q.1) = false := by
      intro q hq
      have hne : ¬normalizeUsername q.1 = normalizeUsername p.1 :=
        fun he => hrels q hq he.symm
      have hfq := hfresh q (List.mem_cons_of_mem p hq)
      constructor
      · rw [mapHas_mapSet_ne st.users (normalizeUsername p.1) (normalizeUsername q.1)
          (hash p.2) hne]
        exact hfq.1
      · exact hfq.2
    have hvrest : ∀ q ∈ rest,
        usernameMatchesPattern (normalizeUsername q.1) = true ∧ 10 ≤ q.2.length :=
      fun q hq => hvalid q (List.mem_cons_of_mem p hq)
    have hih := ih
      { st with
          users := mapSet st.users (normalizeUsername p.1) (hash p.2)
          deactivatedUsers := setDelete st.deactivatedUsers (normalizeUsername p.1) }
      hvrest hfrest hdrest
    simp only [List.map_cons, runWriteQueue, createUserTask, hrun]
    constructor
    · intro r hr
      rcases List.mem_cons.mp hr with hhead | htail
      · exact ⟨{ username := normalizeUsername p.1, role := Role.user, isActive := true },
          hhead⟩
      · exact hih.1 r htail
    · intro q hq
      rcases List.mem_cons.mp hq with hhead | htail
      · subst hhead
        rw [runWriteQueue_createUsers_preserves hash (normalizeUsername q.1) rest _
          (fun r hr => fun he => hrels r hr he.symm)]
        exact mapGet_mapSet_self st.users (normalizeUsername q.1) (hash q.2)
      · exact hih.2 q htail

/-- Claim C8: all file mutation runs through the sequential write queue, where
each task starts only after the previous one settles; consequently, for any
submission order of N queued `createUser` calls with distinct valid usernames
fresh in the store, all N calls succeed and all N `username:passwordHash`
entries appear in the final serialized credential file — no lost writes. -/
theorem writeQueue_concurrent_creates (hash : String → String)
    (pairs : List (String × String)) (st : CredState)
    (hvalid : ∀ p ∈ pairs,
      usernameMatchesPattern (normalizeUsername p.1) = true ∧ 10 ≤ p.2.length)
    (hfresh : ∀ p ∈ pairs, mapHas st.users (normalizeUsername p.1) = false ∧
      mapHas st.admins (normalizeUsername p.1) = false)
    (hdistinct : pairs.Pairwise
      (fun a b => ¬normalizeUsername a.1 = normalizeUsername b.1)) :
    (∀ r ∈ (runWriteQueue (pairs.map (fun p => createUserTask hash p.1 p.2)) st).1,
      ∃ s : UserSummary, r = Except.ok s)
    ∧ (∀ p ∈ pairs,
      (normalizeUsername p.1 ++ ":" ++ hash p.2) ∈
        serializeCredentialMap
          (runWriteQueue (pairs.map (fun p => createUserTask hash p.1 p.2)) st).2.users) := by
  obtain ⟨hok, hmem⟩ := runWriteQueue_createUsers_ok hash pairs st hvalid hfresh hdistinct
  exact ⟨hok, fun p hp => mem_serializeCredentialMap (mem_of_mapGet_eq_some (hmem p hp))⟩

def c8Pairs : List (String × String) :=
  [("ada", "password0001"), ("bob", "password0002")]

def c8Start : CredState :=
  { users := [], admins := [], primaryAdmins := [], deactivatedUsers := [] }

theorem writeQueue_concurrent_creates_witness :
    (normalizeUsername "ada" ++ ":" ++ ("H" ++ "password0001")) ∈
      serializeCredentialMap
        (runWriteQueue (c8Pairs.map (fun p => createUserTask (fun s => "H" ++ s) p.1 p.2))
          c8Start).2.users
    ∧ (normalizeUsername "bob" ++ ":" ++ ("H" ++ "password0002")) ∈
      serializeCredentialMap
        (runWriteQueue (c8Pairs.map (fun p => createUserTask (fun s => "H" ++ s) p.1 p.2))
          c8Start).2.users := by
  have h := writeQueue_concurrent_creates (fun s => "H" ++ s) c8Pairs c8Start
    (by decide) (by decide) (by decide)
  exact ⟨h.2 ("ada", "password0001") (by decide), h.2 ("bob", "password0002") (by decide)⟩

theorem notificationMatches_some {parseDate : String → Option Int} {adminUsername : String}
    {s : Int} {e : NotificationEntry}
    (h : notificationMatches parseDate adminUsername (some s) e = true) :
    e.admin = adminUsername
    ∧ ∃ t : Int, parseDate (toIsoCandidate e.timestamp) = some t ∧ s < t := by
  unfold notificationMatches at h
  by_cases hadm : e.admin = adminUsername
  · refine ⟨hadm, ?_⟩
    rw [if_neg (by simp [hadm])] at h
    cases hp : parseDate (toIsoCandidate e.timestamp) with
    | none => rw [hp] at h; cases h
    | some t =>
      rw [hp] at h
      exact ⟨t, rfl, by simpa using h⟩
  · rw [if_pos (by simp [hadm])] at h
    cases h

/-- Claim C10: the `since` filter of `getNotificationsForAdmin` is strictly
exclusive: with a usable bound, every returned entry is addressed to the admin
and carries a strictly later parsed timestamp — an entry whose timestamp
parses exactly to the bound is omitted — at most `limit` entries are returned,
and on a chronologically ordered log the result is newest first. -/
theorem getNotificationsForAdmin_strict_since (parseDate : String → Option Int)
    (lines : List String) (adminUsername : String) (limit : Nat) (since : Option String)
    (s : Int) (hlimit : 0 < limit)
    (hsince : sinceBound parseDate since = some s) :
    (∀ e ∈ getNotificationsForAdmin parseDate lines adminUsername limit since,
      e.admin = adminUsername
      ∧ (∃ t : Int, parseDate (toIsoCandidate e.timestamp) = some t ∧ s < t)
      ∧ ¬parseDate (toIsoCandidate e.timestamp) = some s)
    ∧ (getNotificationsForAdmin parseDate lines adminUsername limit since).length ≤ limit
    ∧ ((parseNotificationLines lines).Pairwise (fun a b => ∀ ta tb : Int,
        parseDate (toIsoCandidate a.timestamp) = some ta →
        parseDate (toIsoCandidate b.timestamp) = some tb → ta ≤ tb) →
      (getNotificationsForAdmin parseDate lines adminUsername limit since).Pairwise
        (fun a b => ∀ ta tb : Int,
          parseDate (toIsoCandidate a.timestamp) = some ta →
          parseDate (toIsoCandidate b.timestamp) = some tb → tb ≤ ta)) := by
  have hlz : ¬limit = 0 := Nat.pos_iff_ne_zero.mp hlimit
  simp only [getNotificationsForAdmin, hsince]
  refine ⟨?_, ?_, ?_⟩
  · intro e he
    rw [List.mem_reverse] at he
    have hef : e ∈ (parseNotificationLines lines).filter
        (notificationMatches parseDate adminUsername (some s)) := by
      rw [sliceLast, if_neg hlz] at he
      exact List.drop_subset _ _ he
    obtain ⟨hmem, hmatch⟩ := List.mem_filter.mp hef
    obtain ⟨hadm, t, hp, hlt⟩ := notificationMatches_some hmatch
    refine ⟨hadm, ⟨t, hp, hlt⟩, ?_⟩
    intro heq
    rw [heq] at hp
    have : s = t := Option.some.inj hp
    rw [this] at hlt
    exact lt_irrefl t hlt
  · rw [List.length_reverse, sliceLast, if_neg hlz, List.length_drop]
    omega
  · intro hchrono
    have h1 := hchrono.filter (notificationMatches parseDate adminUsername (some s))
    have hsub : List.Sublist
        (sliceLast ((parseNotificationLines lines).filter
          (notificationMatches parseDate adminUsername (some s))) limit)
        ((parseNotificationLines lines).filter
          (notificationMatches parseDate adminUsername (some s))) := by
      rw [sliceLast, if_neg hlz]
      exact List.drop_sublist _ _
    have h2 := h1.sublist hsub
    rw [List.pairwise_reverse]
    exact h2.imp (fun hr ta tb hta htb => hr tb ta htb hta)

def c10Parse : String → Option Int :=
  fun str =>
    if str = "2024-01-01T10:00:00" then some 100
    else if str = "2024-01-01T10:00:01" then some 101
    else none

def c10Lines : List String :=
  ["2024-01-01 10:00:00, bob, login, alice",
   "2024-01-01 10:00:01, bob, logout, alice"]

theorem getNotificationsForAdmin_strict_since_witness :
    (getNotificationsForAdmin c10Parse c10Lines "alice" 10
      (some "2024-01-01T10:00:00")).length ≤ 10 :=
  (getNotificationsForAdmin_strict_since c10Parse c10Lines "alice" 10
    (some "2024-01-01T10:00:00") 100 (by decide) (by rfl)).2.1
